import Mathlib

/-!
Verification of the raffle discovery-and-entry engine of
scraptf-auto-raffle-util (src/utils.py and src/enter_raffles.py).

The Python code is shallowly embedded: Python strings become `List Char`
with the Python primitives (`str.find`, slicing with negative indices,
`str.split`, `str.strip`, `str.replace`) reimplemented with their Python
semantics; JSON values carry Python truthiness; Python exceptions become
an `Except PyErr` result; network responses are supplied by oracles.
-/

/-- Python exception kinds that the embedded code can raise. -/
inductive PyErr where
  | keyboardInterrupt
  | typeError
  | indexError
  | attributeError
  | keyError
deriving DecidableEq

/-- JSON values as Python objects (the shapes used by the code). -/
inductive JVal where
  | jbool : Bool → JVal
  | jstr : String → JVal
  | jnum : Int → JVal
deriving DecidableEq

/-- Python truthiness of a JSON value (`if not x`). -/
def JVal.truthy : JVal → Bool
  | .jbool b => b
  | .jstr s => s != ""
  | .jnum n => n != 0

/-- Scan helper for `str.find`: first index at which `needle` occurs. -/
def pyFindAux (needle : List Char) : List Char → Nat → Option Nat
  | [], i => if needle = [] then some i else none
  | c :: rest, i =>
    if needle.isPrefixOf (c :: rest) then some i else pyFindAux needle rest (i + 1)

/-- Python `hay.find(needle, start)`: index of first occurrence at or after
`start`, and `-1` when there is none. -/
def pyFind (needle hay : List Char) (start : Nat) : Int :=
  match pyFindAux needle (hay.drop start) 0 with
  | none => -1
  | some j => ((start + j : Nat) : Int)

/-- Python slice `s[b:e]` for integer bounds, including negative indices
counting from the end. -/
def pySlice (s : List Char) (b e : Int) : List Char :=
  let n : Int := s.length
  let b' : Int := if b < 0 then max (n + b) 0 else min b n
  let e' : Int := if e < 0 then max (n + e) 0 else min e n
  (s.take e'.toNat).drop b'.toNat

/-- The whitespace characters stripped by Python `str.strip()`. -/
def isPySpace (c : Char) : Bool :=
  c = ' ' || c = '\t' || c = '\n' || c = '\r' || c = Char.ofNat 11 || c = Char.ofNat 12

/-- Python `str.strip()`. -/
def pyStrip (s : List Char) : List Char :=
  ((s.dropWhile isPySpace).reverse.dropWhile isPySpace).reverse

/-- Python `str.split(sep)` for a one-character separator: keeps empty
pieces and always returns at least one piece. -/
def pySplit (sep : Char) : List Char → List (List Char)
  | [] => [[]]
  | c :: rest =>
    if c = sep then [] :: pySplit sep rest
    else
      match pySplit sep rest with
      | [] => [[c]]
      | x :: xs => (c :: x) :: xs

/-- Python `str.upper()`. -/
def pyUpper (s : List Char) : List Char := s.map Char.toUpper

/-- The double-quote character removed by `.replace('"', '')`. -/
def dquote : Char := Char.ofNat 34

/-- The single-quote character removed by `.replace('\x27', '')`. -/
def squote : Char := Char.ofNat 39

/-- Opening parenthesis character. -/
def lpar : Char := Char.ofNat 40

/-- Closing parenthesis character. -/
def rpar : Char := Char.ofNat 41

/-- The marker substring `'ScrapTF.User.Hash'` of get_csrf_hash. -/
def csrfMarker : List Char := "ScrapTF.User.Hash".data

/-- The per-script-block body of the loop of get_csrf_hash
(src/utils.py lines 22-28): find the marker, then the token between the
`=` after it and the character before the first newline after that,
quote- and whitespace-stripped.  `none` when the marker is absent. -/
def scriptToken (content : List Char) : Option (List Char) :=
  let pos := pyFind csrfMarker content 0
  if pos = -1 then none
  else
    let b := pyFind ['='] content pos.toNat + 1
    let e := pyFind ['\n'] content b.toNat - 1
    some (pyStrip ((pySlice content b e).filter (fun c => c != dquote)))

/-- One step of the `for script in soup.find_all('script')` fold: a block
without the marker leaves `csrf` unchanged, a block with it overwrites. -/
def csrfStep (csrf : Option (List Char)) (content : List Char) : Option (List Char) :=
  match scriptToken content with
  | none => csrf
  | some t => some t

/-- get_csrf_hash (src/utils.py lines 8-29), over the text of the page's
script blocks in document order. -/
def get_csrf_hash (scripts : List (List Char)) : Option (List Char) :=
  scripts.foldl csrfStep none

example : get_csrf_hash ["var x = 1;\n".data] = none := rfl
example :
    get_csrf_hash ["ScrapTF.User.Hash = \"c0ffee\";\n".data] = some "c0ffee".data := rfl

/-- An HTML element as seen through the BeautifulSoup queries the code
makes: its tag, its class list, its `id` attribute and (for buttons) its
`onclick` attribute. -/
structure Elem where
  tag : String
  classes : List String
  id : List Char
  onclick : Option (List Char) := none
deriving DecidableEq

/-- The panel-parsing loop of get_raffle_batch (src/utils.py lines
119-126): every `div` with class `panel-raffle` yields the trailing
`-`-separated segment of its element id, tagged with whether class
`raffle-entered` is present. -/
def parsePanels (html : List Elem) : List (List Char × Bool) :=
  (html.filter (fun e => e.tag == "div" && e.classes.contains "panel-raffle")).map
    (fun e => ((pySplit '-' e.id).getLastD [], e.classes.contains "raffle-entered"))

/-- The parsed JSON body of one `Paginate` response
(`{success, html, done}` per the upstream protocol). -/
structure PagResp where
  success : JVal
  html : List Elem
  done : JVal

/-- Result of get_raffle_batch: the Python function returns `False` on an
unsuccessful response, else the batch list paired with the raw `done`
field. -/
inductive BatchResult where
  | failure
  | batch (raffles : List (List Char × Bool)) (done : JVal)

/-- get_raffle_batch (src/utils.py lines 84-128), applied to the parsed
response of the `Paginate` call it issues. -/
def get_raffle_batch (resp : PagResp) : BatchResult :=
  if resp.success.truthy then .batch (parsePanels resp.html) resp.done else .failure

/-- Result of get_all_raffles: `False` on failure, else the concatenated
raffle list. -/
inductive RafflesResult where
  | failure
  | ok (raffles : List (List Char × Bool))

/-- The `while not done` loop of get_all_raffles (src/utils.py lines
145-156).  `paginate` is the upstream oracle indexed by call number;
`fuel` bounds the number of loop iterations the embedding executes
(`none` = the Python loop has not returned within `fuel` iterations);
`cursors` records the `raffle_id` cursor passed to each call.
`raffles[-1]` on an empty accumulated list raises IndexError. -/
def getAllLoop (paginate : Nat → Except PyErr PagResp) (fuel k : Nat)
    (lastid : List Char) (acc : List (List Char × Bool)) (done : JVal)
    (cursors : List (List Char)) :
    Option (Except PyErr RafflesResult × List (List Char)) :=
  if done.truthy then some (.ok (.ok acc), cursors)
  else
    match fuel with
    | 0 => none
    | fuel' + 1 =>
      match paginate k with
      | .error e => some (.error e, cursors ++ [lastid])
      | .ok resp =>
        match get_raffle_batch resp with
        | .failure => some (.ok .failure, cursors ++ [lastid])
        | .batch batch done' =>
          let acc' := acc ++ batch
          match acc'.getLast? with
          | none => some (.error .indexError, cursors ++ [lastid])
          | some last => getAllLoop paginate fuel' (k + 1) last.1 acc' done' (cursors ++ [lastid])

/-- get_all_raffles (src/utils.py lines 130-156): start with the empty
cursor, an empty accumulator and `done = False`. -/
def get_all_raffles (paginate : Nat → Except PyErr PagResp) (fuel : Nat) :
    Option (Except PyErr RafflesResult × List (List Char)) :=
  getAllLoop paginate fuel 0 [] [] (.jbool false) []

/-- The argument parsing applied to the `onclick` attribute of the enter
button (src/utils.py lines 60-62): the text between the first `(` and the
character before the first `)` after it, single quotes removed, split on
commas. -/
def buttonArgs (oc : List Char) : List (List Char) :=
  let b := pyFind [lpar] oc 0 + 1
  let e := pyFind [rpar] oc b.toNat - 1
  pySplit ',' ((pySlice oc b e).filter (fun c => c != squote))

/-- `soup.find('button', {'id': 'raffle-enter'})`: the first button
element whose id attribute is `raffle-enter`, if any. -/
def findEnterButton (html : List Elem) : Option Elem :=
  html.find? (fun e => e.tag == "button" && e.id == "raffle-enter".data)

/-- The final interpretation of the submission response (src/utils.py
lines 78-82): the `success` field is returned when it is a bool, and
anything else becomes `False`. -/
def interpretSuccess : JVal → Bool
  | .jbool b => b
  | _ => false

/-- try_enter_raffle (src/utils.py lines 31-82).  `scripts` and `elems`
model the fetched detail page (its script blocks and its elements);
`submitResp` is the parsed JSON dict answering the EnterRaffle POST.
A missing button, or a missing `onclick` attribute, makes the Python
code call a method on `None` (AttributeError); a descriptor without a
second comma-separated argument makes `button_args[1]` raise IndexError;
missing dict fields raise KeyError. -/
def try_enter_raffle (scripts : List (List Char)) (elems : List Elem)
    (submitResp : List (String × JVal)) (raffle_id : List Char) :
    Except PyErr Bool :=
  let _rid := pyUpper raffle_id
  match get_csrf_hash scripts with
  | none => .ok false
  | some _csrf =>
    match findEnterButton elems with
    | none => .error .attributeError
    | some button =>
      match button.onclick with
      | none => .error .attributeError
      | some oc =>
        match (buttonArgs oc).get? 1 with
        | none => .error .indexError
        | some arg =>
          let _hash := pyStrip arg
          match submitResp.lookup "message" with
          | none => .error .keyError
          | some _msg =>
            match submitResp.lookup "success" with
            | none => .error .keyError
            | some s => .ok (interpretSuccess s)

/-- How the entry loop of try_enter_all_raffles ended: the list was
exhausted, the loop hit `break` on a falsy result, or try_enter_raffle
(or the sleep after it) raised. -/
inductive LoopExit where
  | completed
  | brokeOnFailure
  | raised (e : PyErr)
deriving DecidableEq

/-- The entry loop of try_enter_all_raffles (src/utils.py lines
218-231): attempt each raffle in order, counting successes, `break` on
the first falsy result, propagate exceptions; the trace records each
raffle id on which try_enter_raffle was called. -/
def enterLoop (enter : List Char → Except PyErr Bool) :
    List (List Char) → Nat → List (List Char) → Nat × List (List Char) × LoopExit
  | [], cnt, tr => (cnt, tr, .completed)
  | rid :: rest, cnt, tr =>
    match enter rid with
    | .error e => (cnt, tr ++ [rid], .raised e)
    | .ok true => enterLoop enter rest (cnt + 1) (tr ++ [rid])
    | .ok false => (cnt, tr ++ [rid], .brokeOnFailure)

/-- The filtering pass of try_enter_all_raffles (src/utils.py lines
209-214): walk `reversed(raffles)`, counting entered ones and appending
unentered ids. -/
def partitionUnentered (raffles : List (List Char × Bool)) : Nat × List (List Char) :=
  raffles.reverse.foldl
    (fun st p => if p.2 then (st.1 + 1, st.2) else (st.1, st.2 ++ [p.1])) (0, [])

/-- The external world of one orchestrator run: the main listing page
fetch (its script blocks), the Paginate oracle by call index, and the
outcome of try_enter_raffle per raffle id. -/
structure RunEnv where
  mainPage : Except PyErr (List (List Char))
  paginate : Nat → Except PyErr PagResp
  enter : List Char → Except PyErr Bool

/-- The tail of try_enter_all_raffles once the raffle list is in hand
(src/utils.py lines 208-231 plus the surrounding try/except): filter,
reverse again, run the entry loop; a KeyboardInterrupt from the loop is
caught and the current count returned, other exceptions propagate. -/
def runEntryPhase (enter : List Char → Except PyErr Bool)
    (raffles : List (List Char × Bool)) : Except PyErr JVal × List (List Char) :=
  match enterLoop enter (partitionUnentered raffles).2.reverse 0 [] with
  | (cnt, tr, .raised .keyboardInterrupt) => (.ok (.jnum cnt), tr)
  | (_, tr, .raised e) => (.error e, tr)
  | (cnt, tr, _) => (.ok (.jnum cnt), tr)

/-- try_enter_all_raffles (src/utils.py lines 180-237).  The result pairs
the returned Python value (or the uncaught exception) with the trace of
raffle ids on which try_enter_raffle was called; `none` means the
pagination loop did not return within `fuel` iterations.  A
KeyboardInterrupt raised by any step inside the `try` block is caught
and the current `new_entered_cnt` (0 before the loop) returned; a falsy
csrf returns `False`; `reversed(False)` on a failed get_all_raffles
raises TypeError, which no handler catches. -/
def try_enter_all_raffles (env : RunEnv) (fuel : Nat) :
    Option (Except PyErr JVal × List (List Char)) :=
  match env.mainPage with
  | .error .keyboardInterrupt => some (.ok (.jnum 0), [])
  | .error e => some (.error e, [])
  | .ok scripts =>
    match get_csrf_hash scripts with
    | none => some (.ok (.jbool false), [])
    | some _csrf =>
      match get_all_raffles env.paginate fuel with
      | none => none
      | some (.error .keyboardInterrupt, _) => some (.ok (.jnum 0), [])
      | some (.error e, _) => some (.error e, [])
      | some (.ok .failure, _) => some (.error .typeError, [])
      | some (.ok (.ok raffles), _) => some (runEntryPhase env.enter raffles)

/-! ## Concrete fixtures and unfolding lemmas -/

/-- A main-page script block carrying a csrf token. -/
def mainScript : List Char := "ScrapTF.User.Hash = \"TOKEN1\";\n".data

/-- Listing panels for a batch of raffles, in the shape get_raffle_batch
parses: a `div` with class `panel-raffle`, class `raffle-entered` when
already entered, and the raffle id as element id. -/
def panelsOf (batch : List (List Char × Bool)) : List Elem :=
  batch.map (fun p =>
    { tag := "div",
      classes := if p.2 then ["panel-raffle", "raffle-entered"] else ["panel-raffle"],
      id := p.1 })

/-- The newest-first listing `[R5, R4, R3, R2, R1]` with `R3` already
entered. -/
def raffC1 : List (List Char × Bool) :=
  [("R5".data, false), ("R4".data, false), ("R3".data, true),
   ("R2".data, false), ("R1".data, false)]

/-- Run environment for the ordering scenario: one listing page holding
`raffC1`, `done = true`, and every entry attempt succeeding. -/
def envC1 : RunEnv :=
  { mainPage := .ok [mainScript],
    paginate := fun _ => .ok ⟨.jbool true, panelsOf raffC1, .jbool true⟩,
    enter := fun _ => .ok true }

/-- Run environment whose first Paginate response reports
`success: false`. -/
def envC2 : RunEnv :=
  { mainPage := .ok [mainScript],
    paginate := fun _ => .ok ⟨.jbool false, [], .jbool true⟩,
    enter := fun _ => .ok true }

/-- Paginate oracle answering a nonempty first batch and then empty
batches with `done = false` forever. -/
def spinPaginate : Nat → Except PyErr PagResp := fun k =>
  if k = 0 then .ok ⟨.jbool true, panelsOf [("R1".data, false)], .jbool false⟩
  else .ok ⟨.jbool true, [], .jbool false⟩

/-- Paginate oracle answering an empty batch with `done = false` on
every call. -/
def emptyPaginate : Nat → Except PyErr PagResp := fun _ =>
  .ok ⟨.jbool true, [], .jbool false⟩

/-- Unfolding: the pagination loop with `done = False` and fuel left
issues the next call. -/
lemma getAllLoop_succ_false (paginate : Nat → Except PyErr PagResp)
    (fuel' k : Nat) (lastid : List Char) (acc : List (List Char × Bool))
    (cursors : List (List Char)) :
    getAllLoop paginate (fuel' + 1) k lastid acc (.jbool false) cursors =
      match paginate k with
      | .error e => some (.error e, cursors ++ [lastid])
      | .ok resp =>
        match get_raffle_batch resp with
        | .failure => some (.ok .failure, cursors ++ [lastid])
        | .batch batch done' =>
          match (acc ++ batch).getLast? with
          | none => some (.error .indexError, cursors ++ [lastid])
          | some last =>
            getAllLoop paginate fuel' (k + 1) last.1 (acc ++ batch) done'
              (cursors ++ [lastid]) := rfl

/-- Unfolding: the pagination loop with `done = True` returns the
accumulated raffles without issuing a call. -/
lemma getAllLoop_done_true (paginate : Nat → Except PyErr PagResp)
    (fuel k : Nat) (lastid : List Char) (acc : List (List Char × Bool))
    (cursors : List (List Char)) :
    getAllLoop paginate fuel k lastid acc (.jbool true) cursors =
      some (.ok (.ok acc), cursors) := by
  cases fuel <;> rfl

/-- Unfolding: the pagination loop with `done = False` and no fuel gives
no answer. -/
lemma getAllLoop_zero_false (paginate : Nat → Except PyErr PagResp)
    (k : Nat) (lastid : List Char) (acc : List (List Char × Bool))
    (cursors : List (List Char)) :
    getAllLoop paginate 0 k lastid acc (.jbool false) cursors = none := rfl

/-- The spinning oracle never lets the pagination loop return once a
first nonempty batch has been accumulated: every later call repeats the
same cursor with an empty batch and `done = false`. -/
lemma spin_loop_none : ∀ (fuel k : Nat) (lastid : List Char)
    (acc : List (List Char × Bool)) (cursors : List (List Char)),
    acc ≠ [] →
    getAllLoop spinPaginate fuel (k + 1) lastid acc (.jbool false) cursors = none := by
  intro fuel
  induction fuel with
  | zero => intro k lastid acc cursors _; rfl
  | succ fuel ih =>
    intro k lastid acc cursors hacc
    obtain ⟨l, hl⟩ := Option.isSome_iff_exists.mp (List.getLast?_isSome.mpr hacc)
    rw [getAllLoop_succ_false]
    have hsp : spinPaginate (k + 1) = .ok ⟨.jbool true, [], .jbool false⟩ := by
      simp [spinPaginate]
    rw [hsp]
    show (match (acc ++ ([] : List (List Char × Bool))).getLast? with
      | none => some (Except.error PyErr.indexError, cursors ++ [lastid])
      | some last =>
        getAllLoop spinPaginate fuel (k + 1 + 1) last.1 (acc ++ [])
          (JVal.jbool false) (cursors ++ [lastid])) = none
    rw [List.append_nil, hl]
    exact ih (k + 1) l.1 acc (cursors ++ [lastid]) hacc

/-! ## Claim theorems -/

/-- Claim C1 is false of the code: on the newest-first listing
`[R5, R4, R3, R2, R1]` with `R3` entered, try_enter_all_raffles builds
`unentered` from `reversed(raffles)` and then iterates
`reversed(unentered)`, so it attempts `R5, R4, R2, R1` — the newest
unentered raffle first — not `R1, R2, R4, R5`. -/
theorem c1_entry_order_is_newest_first :
    try_enter_all_raffles envC1 1 =
      some (.ok (.jnum 4), ["R5".data, "R4".data, "R2".data, "R1".data]) := rfl

/-- Claim C2 is false of the code in its clean-failure part: when the
first Paginate response reports `success: false`, get_all_raffles does
return its failure value with no entry attempted, but
try_enter_all_raffles never checks it and `reversed(False)` raises a
TypeError that the `except KeyboardInterrupt` handler does not catch, so
the run ends in an uncaught exception (with an empty attempt trace)
instead of returning its result. -/
theorem c2_falsy_success_raises_uncaught_type_error :
    get_all_raffles envC2.paginate 1 = some (.ok .failure, [[]]) ∧
    try_enter_all_raffles envC2 1 = some (.error .typeError, []) :=
  ⟨rfl, rfl⟩

/-- A detail page with a valid csrf script block but no element at all
matching `button#raffle-enter`. -/
def pageNoButton : List Elem :=
  [{ tag := "div", classes := ["raffle-info"], id := "info".data }]

/-- A detail page whose enter button exists but has no `onclick`
attribute. -/
def pageButtonNoOnclick : List Elem :=
  [{ tag := "button", classes := [], id := "raffle-enter".data, onclick := none }]

/-- A detail page whose enter button has a malformed action descriptor
with a single argument, so `button_args[1]` does not exist. -/
def pageButtonOneArg : List Elem :=
  [{ tag := "button", classes := [], id := "raffle-enter".data,
     onclick := some "EnterRaffle(abc)".data }]

/-- A well-typed submission response. -/
def okResp : List (String × JVal) := [("message", .jstr "ok"), ("success", .jbool true)]

/-- Claim C3 is false of the code: with the entry-action button absent,
`soup.find` returns `None` and `None.get('onclick')` raises
AttributeError; with the button present but the `onclick` attribute
missing, `None.find` likewise raises AttributeError; with a descriptor
holding fewer than two comma-separated arguments, `button_args[1]`
raises IndexError.  None of these is a returned non-success outcome. -/
theorem c3_missing_control_raises :
    try_enter_raffle [mainScript] pageNoButton okResp "r1".data = .error .attributeError ∧
    try_enter_raffle [mainScript] pageButtonNoOnclick okResp "r1".data = .error .attributeError ∧
    try_enter_raffle [mainScript] pageButtonOneArg okResp "r1".data = .error .indexError :=
  ⟨rfl, rfl, rfl⟩

/-- A script block assigning token `AAAA`. -/
def scriptA : List Char := "ScrapTF.User.Hash = \"AAAA\";\n".data

/-- A script block assigning token `BBBB`. -/
def scriptB : List Char := "ScrapTF.User.Hash = \"BBBB\";\n".data

/-- Counterexample to claim C4: with two script blocks both containing
the marker, get_csrf_hash returns the token of the second (last) block,
not the token `AAAA` of the first. -/
theorem c4_counterexample_last_block_wins :
    scriptToken scriptA = some "AAAA".data ∧
    get_csrf_hash [scriptA, scriptB] = some "BBBB".data ∧
    "BBBB".data ≠ "AAAA".data :=
  ⟨rfl, rfl, by decide⟩

/-- Folding csrfStep over blocks without the marker keeps the
accumulator. -/
lemma csrf_foldl_const (ys : List (List Char)) (acc : Option (List Char))
    (h : ∀ y ∈ ys, scriptToken y = none) : ys.foldl csrfStep acc = acc := by
  induction ys generalizing acc with
  | nil => rfl
  | cons y ys ih =>
    have hy : scriptToken y = none := h y (List.mem_cons_self y ys)
    have hstep : csrfStep acc y = acc := by simp [csrfStep, hy]
    rw [List.foldl_cons, hstep]
    exact ih acc (fun z hz => h z (List.mem_cons_of_mem y hz))

/-- Claim C4, amended: the token returned by get_csrf_hash is the one
extracted from the last script block containing the marker (the loop has
no break, so each matching block overwrites the previous token). -/
theorem c4_amended_last_marker_block_wins (xs ys : List (List Char))
    (s t : List Char) (hs : scriptToken s = some t)
    (hys : ∀ y ∈ ys, scriptToken y = none) :
    get_csrf_hash (xs ++ s :: ys) = some t := by
  unfold get_csrf_hash
  rw [List.foldl_append, List.foldl_cons]
  have hstep : csrfStep (xs.foldl csrfStep none) s = some t := by
    simp [csrfStep, hs]
  rw [hstep]
  exact csrf_foldl_const ys (some t) hys

/-- Witness for the amended claim C4 at a concrete input. -/
theorem c4_amended_witness :
    get_csrf_hash [scriptA, scriptB] = some "BBBB".data :=
  c4_amended_last_marker_block_wins [scriptA] [] scriptB "BBBB".data rfl
    (fun y hy => absurd hy (List.not_mem_nil y))

/-- Claim C5 is false of the code: get_all_raffles does not always
terminate with a failure.  Against an upstream answering a nonempty
first batch and then empty batches with `done = false` forever, no
number of loop iterations makes it return — it keeps re-issuing the
same cursor; and when the very first batch is empty with
`done = false`, `raffles[-1]` raises an uncaught IndexError instead of
returning the failure value. -/
theorem c5_empty_batch_never_returns :
    (∀ fuel, get_all_raffles spinPaginate fuel = none) ∧
    get_all_raffles emptyPaginate 1 = some (.error .indexError, [[]]) := by
  constructor
  · intro fuel
    cases fuel with
    | zero => rfl
    | succ fuel' =>
      have h1 : get_all_raffles spinPaginate (fuel' + 1) =
          getAllLoop spinPaginate fuel' 1 "R1".data [("R1".data, false)]
            (.jbool false) [[]] := rfl
      rw [h1]
      exact spin_loop_none fuel' 0 "R1".data [("R1".data, false)] [[]] (by simp)
  · rfl

/-- The entry loop walks past a prefix of raffles whose attempts all
succeed, incrementing the counter once per attempt and recording each
attempt in the trace. -/
lemma enterLoop_ok_run (enter : List Char → Except PyErr Bool) :
    ∀ (ids₁ rest : List (List Char)) (cnt : Nat) (tr : List (List Char)),
    (∀ x ∈ ids₁, enter x = .ok true) →
    enterLoop enter (ids₁ ++ rest) cnt tr =
      enterLoop enter rest (cnt + ids₁.length) (tr ++ ids₁) := by
  intro ids₁
  induction ids₁ with
  | nil => intro rest cnt tr _; simp
  | cons x ids ih =>
    intro rest cnt tr h
    have hx : enter x = .ok true := h x (List.mem_cons_self x ids)
    have h' : ∀ y ∈ ids, enter y = .ok true :=
      fun y hy => h y (List.mem_cons_of_mem x hy)
    rw [List.cons_append]
    have hstep : enterLoop enter (x :: (ids ++ rest)) cnt tr =
        enterLoop enter (ids ++ rest) (cnt + 1) (tr ++ [x]) := by
      simp [enterLoop, hx]
    rw [hstep, ih rest (cnt + 1) (tr ++ [x]) h']
    congr 1
    · simp only [List.length_cons]
      omega
    · simp

/-- Claim C6 (fail-fast): in the orchestrator's entry loop, once an
attempt returns a falsy outcome the loop breaks — no later raffle is
attempted — and the returned new-entry count is exactly the number of
successful attempts before the failure. -/
theorem c6_fail_fast (enter : List Char → Except PyErr Bool)
    (ids₁ : List (List Char)) (rid : List Char) (ids₂ : List (List Char))
    (h1 : ∀ x ∈ ids₁, enter x = .ok true) (h2 : enter rid = .ok false) :
    enterLoop enter (ids₁ ++ rid :: ids₂) 0 [] =
      (ids₁.length, ids₁ ++ [rid], .brokeOnFailure) := by
  rw [enterLoop_ok_run enter ids₁ (rid :: ids₂) 0 [] h1]
  simp [enterLoop, h2]

/-- An entry oracle that rejects exactly raffle `B2`. -/
def enterC6 : List Char → Except PyErr Bool := fun rid => .ok (rid != "B2".data)

/-- Witness for claim C6: with `A1` succeeding and `B2` rejected, `C3`
is never attempted and the count is 1. -/
theorem c6_fail_fast_witness :
    enterLoop enterC6 (["A1".data] ++ "B2".data :: ["C3".data]) 0 [] =
      (1, ["A1".data, "B2".data], .brokeOnFailure) :=
  c6_fail_fast enterC6 ["A1".data] "B2".data ["C3".data]
    (fun x hx => by
      cases hx with
      | head => rfl
      | tail _ h => cases h)
    rfl

/-- Claim C7: try_enter_raffle reaches its response interpretation only
through `type(success) == bool`, so whenever the fetched page parses and
the response carries `message` and `success` fields, the outcome is
`True` exactly when `success` is the boolean `true`; any string value —
such as `"yes"` — yields `False` (a rejection). -/
theorem c7_success_strictly_boolean (scripts : List (List Char)) (elems : List Elem)
    (resp : List (String × JVal)) (rid : List Char) (t : List Char) (btn : Elem)
    (oc arg : List Char) (m s : JVal)
    (h1 : get_csrf_hash scripts = some t)
    (h2 : findEnterButton elems = some btn)
    (h3 : btn.onclick = some oc)
    (h4 : (buttonArgs oc)[1]? = some arg)
    (h5 : resp.lookup "message" = some m)
    (h6 : resp.lookup "success" = some s) :
    (try_enter_raffle scripts elems resp rid = .ok true ↔ s = .jbool true) ∧
    ∀ v, s = .jstr v → try_enter_raffle scripts elems resp rid = .ok false := by
  have hres : try_enter_raffle scripts elems resp rid = .ok (interpretSuccess s) := by
    simp [try_enter_raffle, h1, h2, h3, h4, h5, h6]
  constructor
  · rw [hres]
    cases s with
    | jbool b => cases b <;> simp [interpretSuccess]
    | jstr v => simp [interpretSuccess]
    | jnum n => simp [interpretSuccess]
  · intro v hv
    rw [hres, hv]
    rfl

/-- A detail page whose enter button carries a well-formed action
descriptor. -/
def pageButtonGood : List Elem :=
  [{ tag := "button", classes := [], id := "raffle-enter".data,
     onclick := some "EnterRaffle('ABC', 'HASH99', 'x')".data }]

/-- The submission response of the non-boolean-success scenario. -/
def yesResp : List (String × JVal) := [("message", .jstr "ok"), ("success", .jstr "yes")]

/-- Witness for claim C7: the response `{"success": "yes"}` yields a
rejection. -/
theorem c7_success_strictly_boolean_witness :
    try_enter_raffle [mainScript] pageButtonGood yesResp "ab12cd".data = .ok false :=
  (c7_success_strictly_boolean [mainScript] pageButtonGood yesResp "ab12cd".data
    "TOKEN1".data
    { tag := "button", classes := [], id := "raffle-enter".data,
      onclick := some "EnterRaffle('ABC', 'HASH99', 'x')".data }
    "EnterRaffle('ABC', 'HASH99', 'x')".data " HASH99".data
    (.jstr "ok") (.jstr "yes")
    rfl rfl rfl rfl rfl rfl).2 "yes" rfl

/-- Claim C9: a cooperative interruption (KeyboardInterrupt) at any of
the suspension points — the main-page fetch, any pagination call, or any
entry attempt — is caught by try_enter_all_raffles, which then returns
normally with the new-entry count accumulated so far (0 before the entry
loop, the number of successful attempts within it). -/
theorem c9_cancellation_returns_counts :
    (∀ (env : RunEnv) (fuel : Nat), env.mainPage = .error .keyboardInterrupt →
      try_enter_all_raffles env fuel = some (.ok (.jnum 0), [])) ∧
    (∀ (env : RunEnv) (fuel : Nat) (scripts : List (List Char)) (t : List Char)
      (cs : List (List Char)),
      env.mainPage = .ok scripts → get_csrf_hash scripts = some t →
      get_all_raffles env.paginate fuel = some (.error .keyboardInterrupt, cs) →
      try_enter_all_raffles env fuel = some (.ok (.jnum 0), [])) ∧
    (∀ (env : RunEnv) (fuel : Nat) (scripts : List (List Char)) (t : List Char)
      (raffles : List (List Char × Bool)) (cs ids₁ : List (List Char))
      (rid : List Char) (ids₂ : List (List Char)),
      env.mainPage = .ok scripts → get_csrf_hash scripts = some t →
      get_all_raffles env.paginate fuel = some (.ok (.ok raffles), cs) →
      (partitionUnentered raffles).2.reverse = ids₁ ++ rid :: ids₂ →
      (∀ x ∈ ids₁, env.enter x = .ok true) →
      env.enter rid = .error .keyboardInterrupt →
      try_enter_all_raffles env fuel = some (.ok (.jnum ids₁.length), ids₁ ++ [rid])) := by
  refine ⟨?_, ?_, ?_⟩
  · intro env fuel h
    simp [try_enter_all_raffles, h]
  · intro env fuel scripts t cs h1 h2 h3
    simp [try_enter_all_raffles, h1, h2, h3]
  · intro env fuel scripts t raffles cs ids₁ rid ids₂ h1 h2 h3 h4 h5 h6
    have hloop : enterLoop env.enter (partitionUnentered raffles).2.reverse 0 [] =
        (ids₁.length, ids₁ ++ [rid], .raised .keyboardInterrupt) := by
      rw [h4, enterLoop_ok_run env.enter ids₁ (rid :: ids₂) 0 [] h5]
      simp [enterLoop, h6]
    have hrun : runEntryPhase env.enter raffles =
        (.ok (.jnum ids₁.length), ids₁ ++ [rid]) := by
      unfold runEntryPhase
      rw [hloop]
    simp [try_enter_all_raffles, h1, h2, h3, hrun]

/-- Interrupt during the main-page fetch. -/
def envC9a : RunEnv :=
  { mainPage := .error .keyboardInterrupt,
    paginate := fun _ => .ok ⟨.jbool true, [], .jbool true⟩,
    enter := fun _ => .ok true }

/-- Interrupt during the first pagination call. -/
def envC9b : RunEnv :=
  { mainPage := .ok [mainScript],
    paginate := fun _ => .error .keyboardInterrupt,
    enter := fun _ => .ok true }

/-- Interrupt at the third entry attempt (raffle `R2`), after `R5` and
`R4` were entered. -/
def envC9c : RunEnv :=
  { mainPage := .ok [mainScript],
    paginate := fun _ => .ok ⟨.jbool true, panelsOf raffC1, .jbool true⟩,
    enter := fun rid => if rid = "R2".data then .error .keyboardInterrupt else .ok true }

/-- Witness for claim C9 at the three suspension points. -/
theorem c9_cancellation_returns_counts_witness :
    try_enter_all_raffles envC9a 1 = some (.ok (.jnum 0), []) ∧
    try_enter_all_raffles envC9b 1 = some (.ok (.jnum 0), []) ∧
    try_enter_all_raffles envC9c 1 =
      some (.ok (.jnum 2), ["R5".data, "R4".data, "R2".data]) :=
  ⟨c9_cancellation_returns_counts.1 envC9a 1 rfl,
   c9_cancellation_returns_counts.2.1 envC9b 1 [mainScript] "TOKEN1".data [[]]
     rfl rfl rfl,
   c9_cancellation_returns_counts.2.2 envC9c 1 [mainScript] "TOKEN1".data raffC1 [[]]
     ["R5".data, "R4".data] "R2".data ["R1".data] rfl rfl rfl rfl
     (fun x hx => by
       cases hx with
       | head => rfl
       | tail _ h =>
         cases h with
         | head => rfl
         | tail _ h' => cases h')
     rfl⟩

/-- Splitting on a separator that does not occur returns the whole
string as the single piece. -/
lemma pySplit_no_sep (sep : Char) : ∀ (l : List Char),
    (∀ c ∈ l, c ≠ sep) → pySplit sep l = [l] := by
  intro l
  induction l with
  | nil => intro _; rfl
  | cons c rest ih =>
    intro h
    have hc : c ≠ sep := h c (List.mem_cons_self c rest)
    have hr : pySplit sep rest = [rest] :=
      ih (fun z hz => h z (List.mem_cons_of_mem c hz))
    simp [pySplit, hc, hr]

/-- parsePanels recovers the raffle id and entered flag from one panel
produced by panelsOf, provided the id contains no dash. -/
lemma parsePanels_cons_panel (id : List Char) (entered : Bool) (es : List Elem)
    (hid : ∀ c ∈ id, c ≠ '-') :
    parsePanels
      (({ tag := "div",
          classes := if entered then ["panel-raffle", "raffle-entered"]
                     else ["panel-raffle"],
          id := id } : Elem) :: es) = (id, entered) :: parsePanels es := by
  cases entered <;>
    simp [parsePanels, List.filter_cons, pySplit_no_sep '-' id hid]

/-- parsePanels inverts panelsOf on batches of dash-free raffle ids. -/
lemma parsePanels_panelsOf : ∀ (b : List (List Char × Bool)),
    (∀ p ∈ b, ∀ c ∈ p.1, c ≠ '-') → parsePanels (panelsOf b) = b := by
  intro b
  induction b with
  | nil => intro _; rfl
  | cons p rest ih =>
    intro h
    obtain ⟨id, entered⟩ := p
    have hid : ∀ c ∈ id, c ≠ '-' := h (id, entered) (List.mem_cons_self _ _)
    have hr : parsePanels (panelsOf rest) = rest :=
      ih (fun q hq => h q (List.mem_cons_of_mem _ hq))
    have hpan : panelsOf ((id, entered) :: rest) =
        ({ tag := "div",
           classes := if entered then ["panel-raffle", "raffle-entered"]
                      else ["panel-raffle"],
           id := id } : Elem) :: panelsOf rest := rfl
    rw [hpan, parsePanels_cons_panel id entered (panelsOf rest) hid, hr]

/-- One full iteration of the pagination loop, given the response, its
batch interpretation and the last element of the grown accumulator. -/
lemma getAllLoop_step (paginate : Nat → Except PyErr PagResp) (fuel' k : Nat)
    (lastid : List Char) (acc batch : List (List Char × Bool)) (done' : JVal)
    (cursors : List (List Char)) (resp : PagResp) (last : List Char × Bool)
    (hp : paginate k = .ok resp)
    (hb : get_raffle_batch resp = .batch batch done')
    (hl : (acc ++ batch).getLast? = some last) :
    getAllLoop paginate (fuel' + 1) k lastid acc (.jbool false) cursors =
      getAllLoop paginate fuel' (k + 1) last.1 (acc ++ batch) done'
        (cursors ++ [lastid]) := by
  rw [getAllLoop_succ_false, hp]
  show (match get_raffle_batch resp with
    | BatchResult.failure =>
        some (Except.ok RafflesResult.failure, cursors ++ [lastid])
    | BatchResult.batch batch done' =>
      match (acc ++ batch).getLast? with
      | none => some (Except.error PyErr.indexError, cursors ++ [lastid])
      | some last =>
        getAllLoop paginate fuel' (k + 1) last.1 (acc ++ batch) done'
          (cursors ++ [lastid])) =
    getAllLoop paginate fuel' (k + 1) last.1 (acc ++ batch) done' (cursors ++ [lastid])
  rw [hb]
  show (match (acc ++ batch).getLast? with
    | none => some (Except.error PyErr.indexError, cursors ++ [lastid])
    | some last =>
      getAllLoop paginate fuel' (k + 1) last.1 (acc ++ batch) done'
        (cursors ++ [lastid])) =
    getAllLoop paginate fuel' (k + 1) last.1 (acc ++ batch) done' (cursors ++ [lastid])
  rw [hl]

/-- The id of the last raffle of a batch (the cursor the loop sends for
the following page). -/
def lastBatchId (b : List (List Char × Bool)) : List Char :=
  (b.getLastD ([], false)).1

/-- The pagination loop against an upstream serving the batches of
`pages` in order (all nonempty, with dash-free ids, `done` on the last):
it accumulates the concatenation of the batches and uses as each next
cursor the last id of the previous batch. -/
lemma getAllLoop_pages (paginate : Nat → Except PyErr PagResp) :
    ∀ (pages : List (List (List Char × Bool))) (k fuel : Nat) (lastid : List Char)
      (acc : List (List Char × Bool)) (cursors : List (List Char)),
      pages ≠ [] →
      pages.length ≤ fuel →
      (∀ i, i < pages.length →
        paginate (k + i) = .ok ⟨.jbool true, panelsOf (pages.getD i []),
          .jbool (decide (i + 1 = pages.length))⟩) →
      (∀ b ∈ pages, b ≠ []) →
      (∀ b ∈ pages, ∀ p ∈ b, ∀ c ∈ p.1, c ≠ '-') →
      getAllLoop paginate fuel k lastid acc (.jbool false) cursors =
        some (.ok (.ok (acc ++ pages.flatten)),
          cursors ++ lastid :: (pages.dropLast.map lastBatchId)) := by
  intro pages
  induction pages with
  | nil => intro k fuel lastid acc cursors hne; exact absurd rfl hne
  | cons b rest ih =>
    intro k fuel lastid acc cursors _ hfuel hO hnb hdash
    obtain ⟨fuel', rfl⟩ : ∃ fuel', fuel = fuel' + 1 := by
      cases fuel with
      | zero => simp at hfuel
      | succ f => exact ⟨f, rfl⟩
    have hbne : b ≠ [] := hnb b (List.mem_cons_self _ _)
    have hbdash : ∀ p ∈ b, ∀ c ∈ p.1, c ≠ '-' := hdash b (List.mem_cons_self _ _)
    have h0 : paginate k = .ok ⟨.jbool true, panelsOf b,
        .jbool (decide (0 + 1 = (b :: rest).length))⟩ := by
      have h := hO 0 (by simp)
      simpa using h
    have hbatch : get_raffle_batch ⟨.jbool true, panelsOf b,
        .jbool (decide (0 + 1 = (b :: rest).length))⟩ =
        .batch b (.jbool (decide (0 + 1 = (b :: rest).length))) := by
      have hpp : parsePanels (panelsOf b) = b := parsePanels_panelsOf b hbdash
      simp [get_raffle_batch, JVal.truthy, hpp]
    obtain ⟨x, hx⟩ := Option.isSome_iff_exists.mp (List.getLast?_isSome.mpr hbne)
    have hlast : (acc ++ b).getLast? = some x := by
      rw [List.getLast?_append_of_ne_nil acc hbne, hx]
    have hlb : lastBatchId b = x.1 := by
      unfold lastBatchId
      rw [List.getLastD_eq_getLast?, hx]
      rfl
    rw [getAllLoop_step paginate fuel' k lastid acc b _ cursors _ x h0 hbatch hlast]
    rcases eq_or_ne rest [] with rfl | hrest
    · have hd : (decide (0 + 1 = ([b] : List (List (List Char × Bool))).length)) = true := by
        simp
      rw [hd, getAllLoop_done_true]
      simp
    · have hd : (decide (0 + 1 = (b :: rest).length)) = false := by
        have hrl : rest.length ≠ 0 := fun hz => hrest (List.length_eq_zero.mp hz)
        have hlen := List.length_cons b rest
        rw [decide_eq_false_iff_not]
        omega
      rw [hd]
      have hO' : ∀ i, i < rest.length →
          paginate (k + 1 + i) = .ok ⟨.jbool true, panelsOf (rest.getD i []),
            .jbool (decide (i + 1 = rest.length))⟩ := by
        intro i hi
        have h := hO (i + 1) (by have hlen := List.length_cons b rest; omega)
        rw [show k + (i + 1) = k + 1 + i by omega] at h
        rw [List.getD_cons_succ] at h
        rw [show (decide (i + 1 + 1 = (b :: rest).length)) =
            (decide (i + 1 = rest.length)) from
          decide_eq_decide.mpr (by have hlen := List.length_cons b rest; omega)] at h
        exact h
      have hnb' : ∀ q ∈ rest, q ≠ [] := fun q hq => hnb q (List.mem_cons_of_mem _ hq)
      have hdash' : ∀ q ∈ rest, ∀ p ∈ q, ∀ c ∈ p.1, c ≠ '-' :=
        fun q hq => hdash q (List.mem_cons_of_mem _ hq)
      have hfuel' : rest.length ≤ fuel' := by
        have hlen := List.length_cons b rest
        omega
      rw [ih (k + 1) fuel' x.1 (acc ++ b) (cursors ++ [lastid]) hrest hfuel' hO'
        hnb' hdash']
      rw [List.dropLast_cons_of_ne_nil hrest]
      simp [hlb, List.flatten_cons]

/-- The Paginate oracle induced by a fixed page plan: call `k` answers
the `k`-th batch, successful, with `done` set on the last page. -/
def oracleOf (pages : List (List (List Char × Bool))) : Nat → Except PyErr PagResp :=
  fun k => .ok ⟨.jbool true, panelsOf (pages.getD k []),
    .jbool (decide (k + 1 = pages.length))⟩

/-- Claim C8: against any successful pagination plan of nonempty batches
(with dash-free ids), get_all_raffles returns the concatenation of the
batches — its length is the sum of the batch lengths — and the cursor of
each call after the first (which uses the empty cursor) is exactly the
last raffle id of the previous batch. -/
theorem c8_pagination_concats_and_chains_cursors
    (pages : List (List (List Char × Bool)))
    (hne : pages ≠ []) (hnb : ∀ b ∈ pages, b ≠ [])
    (hdash : ∀ b ∈ pages, ∀ p ∈ b, ∀ c ∈ p.1, c ≠ '-') :
    get_all_raffles (oracleOf pages) pages.length =
      some (.ok (.ok pages.flatten), [] :: (pages.dropLast.map lastBatchId)) ∧
    pages.flatten.length = (pages.map List.length).sum := by
  constructor
  · have h := getAllLoop_pages (oracleOf pages) pages 0 pages.length [] [] []
      hne le_rfl (fun i hi => by simp [oracleOf]) hnb hdash
    simpa [get_all_raffles] using h
  · exact List.length_flatten pages

/-- A three-page plan: `[R5, R4]`, then `[R3]`, then `[R2, R1]`. -/
def pagesW : List (List (List Char × Bool)) :=
  [[("R5".data, false), ("R4".data, false)],
   [("R3".data, true)],
   [("R2".data, false), ("R1".data, false)]]

/-- Witness for claim C8 on the three-page plan: the cursors are the
empty cursor, then `R4`, then `R3`. -/
theorem c8_pagination_concats_and_chains_cursors_witness :
    get_all_raffles (oracleOf pagesW) pagesW.length =
      some (.ok (.ok pagesW.flatten), [] :: (pagesW.dropLast.map lastBatchId)) ∧
    pagesW.flatten.length = (pagesW.map List.length).sum :=
  c8_pagination_concats_and_chains_cursors pagesW (by decide) (by decide) (by decide)

/-- Python `find` never returns less than `-1`. -/
lemma pyFind_ge_neg_one (needle hay : List Char) (start : Nat) :
    -1 ≤ pyFind needle hay start := by
  unfold pyFind
  cases pyFindAux needle (hay.drop start) 0 with
  | none => exact le_refl (-1)
  | some j =>
    show (-1 : Int) ≤ ((start + j : Nat) : Int)
    omega

/-- A Python slice with nonnegative start and end `-2` keeps everything
from the start index up to two characters before the end. -/
lemma pySlice_neg_two (s : List Char) (b : Int) (hb : 0 ≤ b) :
    pySlice s b (-2) = (s.take (s.length - 2)).drop b.toNat := by
  have hbneg : ¬ b < 0 := by omega
  simp only [pySlice, if_neg hbneg, if_pos (show (-2 : Int) < 0 by norm_num)]
  have he : (max ((s.length : Int) + -2) 0).toNat = s.length - 2 := by
    rcases le_total ((s.length : Int) + -2) 0 with h | h
    · rw [max_eq_right h]; omega
    · rw [max_eq_left h]; omega
  have hb2 : (min b ((s.length : Int))).toNat = min b.toNat s.length := by
    rcases le_total b ((s.length : Int)) with h | h
    · rw [min_eq_left h, min_eq_left (by omega : b.toNat ≤ s.length)]
    · rw [min_eq_right h, min_eq_right (by omega : s.length ≤ b.toNat)]
      omega
  rw [he, hb2]
  rcases le_or_lt b.toNat s.length with h | h
  · rw [min_eq_left h]
  · rw [min_eq_right h.le]
    have h1 : (s.take (s.length - 2)).length ≤ s.length := by
      rw [List.length_take]
      omega
    rw [List.drop_eq_nil_of_le h1, List.drop_eq_nil_of_le (le_trans h1 h.le)]

/-- Claim C10: the token slice of get_csrf_hash ends at the index of the
first newline after the assignment operator minus one, so an unquoted
assignment line `ScrapTF.User.Hash = ABC` followed by a newline yields
`AB` (the final character dropped); and when no newline follows the
operator, the slice end is `-1 - 1 = -2`, i.e. the slice stops two
characters before the end of the block. -/
theorem c10_slice_ends_before_newline :
    get_csrf_hash ["ScrapTF.User.Hash = ABC\n".data] = some "AB".data ∧
    ∀ content : List Char,
      pyFind csrfMarker content 0 ≠ -1 →
      pyFind ['\n'] content
        (pyFind ['='] content (pyFind csrfMarker content 0).toNat + 1).toNat = -1 →
      scriptToken content =
        some (pyStrip (((content.take (content.length - 2)).drop
          (pyFind ['='] content (pyFind csrfMarker content 0).toNat + 1).toNat).filter
            (fun c => c != dquote))) := by
  constructor
  · rfl
  · intro content hpos hnl
    have hb : (0 : Int) ≤ pyFind ['='] content (pyFind csrfMarker content 0).toNat + 1 := by
      have h := pyFind_ge_neg_one ['='] content (pyFind csrfMarker content 0).toNat
      omega
    simp only [scriptToken]
    rw [if_neg hpos, hnl]
    rw [show (-1 : Int) - 1 = -2 by norm_num]
    rw [pySlice_neg_two content _ hb]

/-- A script block whose assignment has no newline after it. -/
def c10content : List Char := "ScrapTF.User.Hash = XY".data

/-- Witness for claim C10 on a block without a newline after the
assignment operator. -/
theorem c10_slice_ends_before_newline_witness :
    pyFind csrfMarker c10content 0 ≠ -1 ∧
    scriptToken c10content =
      some (pyStrip (((c10content.take (c10content.length - 2)).drop
        (pyFind ['='] c10content (pyFind csrfMarker c10content 0).toNat + 1).toNat).filter
          (fun c => c != dquote))) :=
  ⟨by decide, c10_slice_ends_before_newline.2 c10content (by decide) (by decide)⟩
